import Mathlib

/-!
Verification development for the Vahan JSF/PrimeFaces AJAX scraping engine
(`vahan_jsf_requests/scraper_requests.py` and `vahan_jsf_requests/extract_all.py`).

Strings are embedded as `List Char`.  HTML fragments are embedded as the
structured data BeautifulSoup would extract from them (selected `thead` /
`tbody` containers with their rows and cell texts); partial-response XML
envelopes are lists of `update` elements carrying an id and payload.
-/

namespace Vahan

abbrev Str := List Char

/-- Python whitespace for `str.split()` / `str.strip()` / `\s` (ASCII part). -/
def isPySpace (c : Char) : Bool :=
  c = ' ' || c = '\t' || c = '\n' || c = '\r' || c = '\x0b' || c = '\x0c'

/-- `txt.replace('\xa0', ' ')`. -/
def replaceNbsp (s : Str) : Str :=
  s.map (fun c => if c = '\xa0' then ' ' else c)

/-- `txt.split()`: split on whitespace runs, dropping empty words. -/
def pyWordsAux : Str → Str → List Str
  | [], acc => if acc.isEmpty then [] else [acc.reverse]
  | c :: cs, acc =>
    if isPySpace c then
      if acc.isEmpty then pyWordsAux cs [] else acc.reverse :: pyWordsAux cs []
    else pyWordsAux cs (c :: acc)

def pyWords (s : Str) : List Str := pyWordsAux s []

/-- `txt.strip()`. -/
def pyStrip (s : Str) : Str :=
  ((s.dropWhile isPySpace).reverse.dropWhile isPySpace).reverse

/-- `scraper_requests.clean_cell_text`:
`' '.join(txt.replace('\xa0', ' ').split())` — whitespace normalization only. -/
def clean_cell_text (txt : Str) : Str :=
  List.intercalate [' '] (pyWords (replaceNbsp txt))

/-- `re.fullmatch(r'\d+', s)` as a Boolean. -/
def fullmatchDigits (s : Str) : Bool :=
  !s.isEmpty && s.all Char.isDigit

/-- `re.fullmatch(r'[0-9,]+', s)` as a Boolean. -/
def fullmatchNumComma (s : Str) : Bool :=
  !s.isEmpty && s.all (fun c => c.isDigit || c = ',')

/-- `re.sub(r'\s+', ' ', s)`: collapse each whitespace run to one space.
The flag records whether we are inside a whitespace run already emitted. -/
def collapseWsAux : Bool → Str → Str
  | _, [] => []
  | inRun, c :: cs =>
    if isPySpace c then
      if inRun then collapseWsAux true cs else ' ' :: collapseWsAux true cs
    else c :: collapseWsAux false cs

def collapseWs (s : Str) : Str := collapseWsAux false s

/-- `extract_all.clean_cell`: strip and de-nbsp, then remove commas from a
purely `[0-9,]+` cell, otherwise collapse whitespace runs. -/
def clean_cell (txt : Str) : Str :=
  let t := pyStrip (replaceNbsp txt)
  if fullmatchNumComma t then t.filter (fun c => c ≠ ',')
  else collapseWs t

/-! ## HTML table fragment model

A fragment is embedded as what BeautifulSoup's container searches would find
in it: the `thead` whose id ends in `_head` (if any), the first `thead` at
all, the `tbody` whose id ends in `_data`, and the first `tbody` at all.
Header cells carry their `role="columnheader"` flag, body rows their
`role="row"` flag, since `extract_all.parse_table` dispatches on those. -/

structure HCell where
  roleColumnHeader : Bool
  text : Str
deriving DecidableEq

structure BRow where
  roleRow : Bool
  cells : List Str
deriving DecidableEq

structure FragmentTable where
  theadHeadId : Option (List (List HCell))
  theadAny : Option (List (List HCell))
  tbodyDataId : Option (List BRow)
  tbodyAny : Option (List BRow)
deriving DecidableEq

def emptyFragmentTable : FragmentTable := ⟨none, none, none, none⟩

/-- `soup.find('thead', id=re.compile(r'_head$')) or soup.find('thead')`. -/
def selectedThead (f : FragmentTable) : Option (List (List HCell)) :=
  match f.theadHeadId with
  | some t => some t
  | none => f.theadAny

/-- `soup.find('tbody', id=re.compile(r'_data$')) or soup.find('tbody')`. -/
def selectedTbody (f : FragmentTable) : Option (List BRow) :=
  match f.tbodyDataId with
  | some t => some t
  | none => f.tbodyAny

/-- Python's `max(rows, key=len)`: the first row of maximal cell count. -/
def pickMaxRow (r0 : List HCell) (rs : List (List HCell)) : List HCell :=
  rs.foldl (fun best cur => if best.length < cur.length then cur else best) r0

def MONTHS : List Str :=
  ["JAN".toList, "FEB".toList, "MAR".toList, "APR".toList, "MAY".toList,
   "JUN".toList, "JUL".toList, "AUG".toList, "SEP".toList, "OCT".toList,
   "NOV".toList, "DEC".toList]

def canonical15 : List Str :=
  ["S No".toList, "Maker".toList] ++ MONTHS ++ ["TOTAL".toList]

def colName (i : Nat) : Str := "col_".toList ++ (Nat.repr i).toList

/-- `any(val.strip() for val in row)`. -/
def rowHasContent (row : List Str) : Bool :=
  row.any (fun v => !(pyStrip v).isEmpty)

/-- Header extraction of `parse_datatable_fragment` (lines 113-121): pick the
selected `thead`'s widest row and clean each cell's text. -/
def rawHeadersScraper (f : FragmentTable) : List Str :=
  match selectedThead f with
  | none => []
  | some [] => []
  | some (r :: rs) => (pickMaxRow r rs).map (fun c => clean_cell_text c.text)

/-- Body-row extraction of `parse_datatable_fragment` (lines 122-132): all
`tr`s of the selected `tbody`, skipping cell-less rows, cleaning each cell,
keeping rows with at least one non-blank cell. -/
def bodyRowsScraper (f : FragmentTable) : List (List Str) :=
  match selectedTbody f with
  | none => []
  | some trs =>
    ((trs.filter (fun tr => !tr.cells.isEmpty)).map
      (fun tr => tr.cells.map clean_cell_text)).filter rowHasContent

/-- Header inference of `parse_datatable_fragment` (lines 133-146). -/
def inferHeadersScraper (headers : List Str) (rows : List (List Str)) :
    List Str :=
  if (headers.isEmpty || headers.all List.isEmpty) && !rows.isEmpty then
    match rows with
    | [] => headers
    | first :: _ =>
      match first with
      | c0 :: c1 :: _ =>
        if decide (5 ≤ first.length) && fullmatchDigits c0 &&
            !fullmatchNumComma c1 then
          if 15 ≤ first.length then canonical15
          else
            let tail := first.length - 2
            if 2 ≤ tail then
              ["S No".toList, "Maker".toList] ++ MONTHS.take (tail - 1) ++
                ["TOTAL".toList]
            else headers
        else headers
      | _ => headers
  else headers

/-- `max((len(r) for r in rows), default=0)`. -/
def maxCols (rows : List (List Str)) : Nat :=
  rows.foldr (fun r m => max r.length m) 0

/-- Width normalization of `parse_datatable_fragment` (lines 147-152):
extend the headers with positional `col_i` names up to the widest row; rows
are left as they are. -/
def normalizeHeadersScraper (headers : List Str) (rows : List (List Str)) :
    List Str :=
  let m := maxCols rows
  if !headers.isEmpty && headers.length < m then
    headers ++ (List.range' headers.length (m - headers.length)).map colName
  else if headers.isEmpty && m ≠ 0 then
    (List.range m).map colName
  else headers

/-- `scraper_requests.parse_datatable_fragment` (lines 106-153). -/
def parse_datatable_fragment (f : FragmentTable) :
    List Str × List (List Str) :=
  let headers := rawHeadersScraper f
  let rows := bodyRowsScraper f
  let headers := inferHeadersScraper headers rows
  (normalizeHeadersScraper headers rows, rows)

/-- Body-row extraction of `extract_all.parse_table` (lines 58-77): prefer
the `_data` `tbody` restricted to `role="row"` rows, else any `tbody`. -/
def dataRowsExtract (f : FragmentTable) : List (List Str) :=
  match f.tbodyDataId with
  | some trs =>
    (((trs.filter (fun tr => tr.roleRow)).filter
        (fun tr => !tr.cells.isEmpty)).map
      (fun tr => tr.cells.map clean_cell)).filter rowHasContent
  | none =>
    match f.tbodyAny with
    | none => []
    | some trs =>
      (trs.map (fun tr => tr.cells.map clean_cell)).filter rowHasContent

/-- Header extraction of `extract_all.parse_table` (lines 79-92): prefer all
cells marked `role="columnheader"` (flattened in document order), else the
widest header row. -/
def headersExtract (f : FragmentTable) : List Str :=
  match selectedThead f with
  | none => []
  | some hrs =>
    let roleCells := hrs.flatten.filter (fun c => c.roleColumnHeader)
    if !roleCells.isEmpty then roleCells.map (fun c => clean_cell c.text)
    else
      match hrs with
      | [] => []
      | r :: rs => (pickMaxRow r rs).map (fun c => clean_cell c.text)

/-- Header inference of `extract_all.parse_table` (lines 94-110). -/
def inferHeadersExtract (headers : List Str) (rows : List (List Str)) :
    List Str :=
  if (headers.isEmpty || headers.all List.isEmpty) && !rows.isEmpty then
    match rows with
    | [] => headers
    | first :: _ =>
      match first with
      | c0 :: c1 :: _ =>
        if decide (5 ≤ first.length) && fullmatchDigits c0 then
          if !fullmatchNumComma c1 then
            if 14 ≤ first.length then canonical15
            else
              let numericTail := first.length - 2
              if 2 ≤ numericTail then
                ["S No".toList, "Maker".toList] ++
                  MONTHS.take (numericTail - 1) ++ ["TOTAL".toList]
              else
                ["S No".toList, "Maker".toList] ++
                  (List.range numericTail).map
                    (fun i => 'M' :: (Nat.repr (i + 1)).toList)
          else headers
        else headers
      | _ => headers
  else headers

/-- Pad a short row with empty cells, truncate an overlong one
(`extract_all.parse_table` lines 113-119). -/
def fitWidth (w : Nat) (r : List Str) : List Str :=
  if r.length < w then r ++ List.replicate (w - r.length) []
  else if w < r.length then r.take w
  else r

/-- Pad a short row with empty cells (`extract_all.parse_table` 120-125). -/
def padWidth (w : Nat) (r : List Str) : List Str :=
  if r.length < w then r ++ List.replicate (w - r.length) [] else r

/-- Width normalization of `extract_all.parse_table` (lines 112-126): with
headers, pad/truncate every row to the header width; without, synthesize
positional headers sized to the widest row and pad. -/
def normalizeExtract (headers : List Str) (rows : List (List Str)) :
    List Str × List (List Str) :=
  if !headers.isEmpty then (headers, rows.map (fitWidth headers.length))
  else
    let w := maxCols rows
    ((List.range w).map colName, rows.map (padWidth w))

/-- `extract_all.parse_table` (lines 52-126). -/
def parse_table (f : FragmentTable) : List Str × List (List Str) :=
  let rows := dataRowsExtract f
  let headers := headersExtract f
  normalizeExtract (inferHeadersExtract headers rows) rows

/-- `build_html_table` (scraper_requests lines 249-252), composed with the
BeautifulSoup parse of its output: a single id-less `thead` holding one row
of `th` cells and a single id-less `tbody` of `td` rows, the cell texts
taken verbatim (cells are assumed to contain no markup). -/
def build_html_table (headers : List Str) (rows : List (List Str)) :
    FragmentTable :=
  { theadHeadId := none
    theadAny := some [headers.map (fun h => ⟨false, h⟩)]
    tbodyDataId := none
    tbodyAny := some (rows.map (fun r => ⟨false, r⟩)) }

/-! ## Partial-response envelope and transport -/

def strStartsWith : Str → Str → Bool
  | [], _ => true
  | _ :: _, [] => false
  | p :: ps, c :: cs => p = c && strStartsWith ps cs

def strEndsWith (pat s : Str) : Bool := strStartsWith pat.reverse s.reverse

/-- One `update` element of a partial-response XML envelope: its `id`, its
text payload, and — when the payload is an HTML fragment — the table
structure BeautifulSoup would find in that payload. -/
structure Update where
  id : Str
  payload : Str
  payloadTable : FragmentTable
deriving DecidableEq

abbrev Envelope := List Update

/-- `xml.find('update', id=re.compile(r'ViewState$'))`: the first update
element whose id ends in `ViewState`. -/
def findViewStateUpdate (env : Envelope) : Option Update :=
  env.find? (fun u => strEndsWith ("ViewState".toList) u.id)

/-- The view-state refresh done on a 200 response (`send_ajax_request`
lines 87-90, identical to `get_view_state_from_xml` lines 456-460): take
the matching update's text when non-empty, else keep the current token. -/
def updateViewState (env : Envelope) (current : Str) : Str :=
  match findViewStateUpdate env with
  | some u => if !u.payload.isEmpty then u.payload else current
  | none => current

/-- Outcome of one HTTP attempt: a 200 response with a parsed envelope, a
non-200 status, or a transport exception. -/
inductive AttemptResult where
  | ok (env : Envelope)
  | badStatus (code : Nat)
  | exn
deriving DecidableEq

inductive SendResult where
  | raised (msg : Str)
  | success (viewState : Str) (env : Envelope)
deriving DecidableEq

/-- `RuntimeError(f"Failed ajax after {retries} attempts for source {source}")`. -/
def failMsg (retries : Nat) (source : Str) : Str :=
  "Failed ajax after ".toList ++ (Nat.repr retries).toList ++
    " attempts for source ".toList ++ source

structure SendOutcome where
  result : SendResult
  attempts : Nat
  sleeps : List ℚ
deriving DecidableEq

/-- The retry loop of `send_ajax_request` (lines 82-95): `attempt` is the
1-based attempt counter, the second argument the remaining attempts.  A 200
response returns the refreshed token and envelope; any failure sleeps
`1.2 * attempt` seconds and retries; exhaustion raises. -/
def sendAux (retries : Nat) (source : Str) (vs : Str)
    (resp : Nat → AttemptResult) : Nat → Nat → SendOutcome
  | _, 0 => ⟨.raised (failMsg retries source), 0, []⟩
  | attempt, n + 1 =>
    match resp attempt with
    | .ok env => ⟨.success (updateViewState env vs) env, 1, []⟩
    | _ =>
      let rest := sendAux retries source vs resp (attempt + 1) n
      ⟨rest.result, rest.attempts + 1,
        (1.2 : ℚ) * (attempt : ℚ) :: rest.sleeps⟩

/-- `send_ajax_request` (lines 63-95), abstracted over the per-attempt
network behaviour `resp`; the source default for `retries` is 3. -/
def send_ajax_request (vs source : Str) (resp : Nat → AttemptResult)
    (retries : Nat) : SendOutcome :=
  sendAux retries source vs resp 1 retries

/-! ## Fragment extraction and page fetching -/

/-- `extract_update_fragment` (lines 446-453): first envelope containing an
`update` with exactly the requested id wins. -/
def extract_update_fragment (envs : List Envelope) (uid : Str) :
    Option Update :=
  match envs with
  | [] => none
  | e :: rest =>
    match e.find? (fun u => u.id == uid) with
    | some u => some u
    | none => extract_update_fragment rest uid

/-- Body-row extraction of `VahanAjaxScraper.fetch_page` (lines 418-427):
the `_data` `tbody` (else any `tbody`), each row's cells cleaned, rows with
no non-blank cell dropped. -/
def fetchPageBody (t : FragmentTable) : List (List Str) :=
  match selectedTbody t with
  | none => []
  | some trs =>
    (trs.map (fun tr => tr.cells.map clean_cell_text)).filter rowHasContent

/-- The response processing of `VahanAjaxScraper.fetch_page` (lines
414-427): no `groupingTable` update, or an empty fragment, yields `[]`. -/
def fetch_page_rows (env : Envelope) : List (List Str) :=
  match extract_update_fragment [env] ("groupingTable".toList) with
  | none => []
  | some u => if u.payload.isEmpty then [] else fetchPageBody u.payloadTable

/-! ## Pagination driver -/

/-- Result of one `fetch_page` call as seen by the pagination loops: a row
list, or a raised exception. -/
inductive FetchResult where
  | rows (rs : List (List Str))
  | raise (msg : Str)
deriving DecidableEq

structure PagOutcome where
  rows : List (List Str)
  fetchedPages : Nat
  calls : List Nat
deriving DecidableEq

/-- The known-total pagination loop of `refresh_and_save` (lines 277-288):
for each page index, append fetched rows; stop on an empty page or an
exception.  `calls` records the page indices actually fetched. -/
def knownLoop (fetch : Nat → FetchResult) :
    List Nat → List (List Str) → Nat → PagOutcome
  | [], rows, fetched => ⟨rows, fetched, []⟩
  | i :: rest, rows, fetched =>
    match fetch i with
    | .raise _ => ⟨rows, fetched, [i]⟩
    | .rows [] => ⟨rows, fetched, [i]⟩
    | .rows prs =>
      let out := knownLoop fetch rest (rows ++ prs) (fetched + 1)
      ⟨out.rows, out.fetchedPages, i :: out.calls⟩

/-- The no-growth fallback loop of `refresh_and_save` (lines 289-307): stop
on an empty page, on no growth, on a page shorter than the page size, on an
exception, or when the index list (the 499-page safety cap) runs out. -/
def fallbackLoop (fetch : Nat → FetchResult) (pageSize : Nat) :
    List Nat → List (List Str) → Nat → PagOutcome
  | [], rows, fetched => ⟨rows, fetched, []⟩
  | i :: rest, rows, fetched =>
    match fetch i with
    | .raise _ => ⟨rows, fetched, [i]⟩
    | .rows [] => ⟨rows, fetched, [i]⟩
    | .rows prs =>
      let newRows := rows ++ prs
      if newRows.length = rows.length then ⟨newRows, fetched, [i]⟩
      else if prs.length < pageSize then ⟨newRows, fetched + 1, [i]⟩
      else
        let out := fallbackLoop fetch pageSize rest newRows (fetched + 1)
        ⟨out.rows, out.fetchedPages, i :: out.calls⟩

/-- Python truthiness of the optional integers in `PaginationMeta`. -/
def truthyN : Option Nat → Bool
  | some k => k != 0
  | none => false

/-- `math.ceil(a / b)` for positive `b`. -/
def ceilNat (a b : Nat) : Nat := (a + b - 1) / b

inductive PageMode where
  | known
  | probe
  | skip
deriving DecidableEq

/-- Which branch of `refresh_and_save` (lines 276 and 289) runs, as a
function of the first-page row count and the extracted metadata. -/
def paginationMode (nRows : Nat) (meta : Option Nat × Option Nat) :
    PageMode :=
  if truthyN meta.1 && truthyN meta.2 && decide (nRows < meta.1.getD 0) then
    .known
  else if truthyN meta.2 && decide (0 < meta.2.getD 0) then .probe
  else .skip

/-- The pagination portion of `refresh_and_save` (lines 274-307): dispatch
on the metadata, then run the matching loop.  Page indices follow Python's
`range(1, total_pages)` and `range(1, 500)`. -/
def refresh_pagination (firstRows : List (List Str))
    (meta : Option Nat × Option Nat) (fetch : Nat → FetchResult) :
    PagOutcome :=
  if truthyN meta.1 && truthyN meta.2 &&
      decide (firstRows.length < meta.1.getD 0) then
    let totalPages := ceilNat (meta.1.getD 0) (meta.2.getD 0)
    knownLoop fetch (List.range' 1 (totalPages - 1)) firstRows 1
  else if truthyN meta.2 && decide (0 < meta.2.getD 0) then
    fallbackLoop fetch (meta.2.getD 0) (List.range' 1 499) firstRows 1
  else ⟨firstRows, 1, []⟩

/-! ## Orchestrator field maps and control flow -/

/-- Fuelled replace-all; `replaceAll` supplies fuel `s.length`, enough to
scan the whole string left to right. -/
def replaceAllAux (pat rep : Str) : Nat → Str → Str
  | 0, s => s
  | fuel + 1, s =>
    if !pat.isEmpty && strStartsWith pat s then
      rep ++ replaceAllAux pat rep fuel (s.drop pat.length)
    else
      match s with
      | [] => []
      | c :: cs => c :: replaceAllAux pat rep fuel cs

/-- Python's `s.replace(old, new)` for a non-empty `old`. -/
def replaceAll (pat rep s : Str) : Str := replaceAllAux pat rep s.length s

def escapeColons (k : Str) : Str := replaceAll [':'] ("%3A".toList) k

def focusKey (k : Str) : Str :=
  replaceAll ("_input".toList) ("_focus".toList) k

/-- The `extra` field-map construction shared by `change_select`,
`refresh_and_save` and `fetch_page` (e.g. lines 255-257): keep the fields
whose value is set, escaping colons in keys, then add an empty `_focus`
entry per tracked key.  Keys whose value is `None` are silently omitted. -/
def buildExtraFields (current : List (Str × Option Str)) :
    List (Str × Str) :=
  current.filterMap (fun kv => kv.2.map (fun v => (escapeColons kv.1, v)))
    ++ current.map (fun kv => (focusKey kv.1, []))

structure AjaxRequest where
  source : Str
  execute : Str
  render : Str
  fields : List (Str × Str)
deriving DecidableEq

/-- The refresh exchange built by `refresh_and_save` (lines 255-269).  It is
built and sent unconditionally: no check that a year has been selected. -/
def refresh_request (current : List (Str × Option Str)) : AjaxRequest :=
  { source := "j_idt66".toList
    execute := "@all".toList
    render := "combTablePnl groupingTable msg".toList
    fields := buildExtraFields current ++
      [("j_idt66".toList, "j_idt66".toList),
       ("groupingTable_scrollState".toList, "0,0".toList)] }

/-- The `current` field map as initialized in `run` (lines 224-232): year
and axis selections start out `None`. -/
def initCurrent : List (Str × Option Str) :=
  [("j_idt26_input".toList, some ("A".toList)),
   ("j_idt34_input".toList, some ("-1".toList)),
   ("selectedRto_input".toList, some ("-1".toList)),
   ("selectedYearType_input".toList, some ("C".toList)),
   ("yaxisVar_input".toList, none),
   ("xaxisVar_input".toList, none),
   ("selectedYear_input".toList, none)]

/-- The sources of the exchanges `run` issues, in order (lines 363-365 and
374-382; the auto and interactive paths issue the same sequence).  `fails k`
states that the `k`-th exchange raised, which aborts the run, so later
exchanges are not issued. -/
def runTrace (fails : Nat → Bool) : List Str :=
  "yaxisVar".toList ::
    if fails 1 then [] else
      "xaxisVar".toList ::
        if fails 2 then [] else
          "selectedYear".toList ::
            if fails 3 then [] else ["j_idt66".toList]

/-! ## Concrete fixtures and loop predicates used by the theorems -/

def vsEmptyUpdate : Update :=
  ⟨"formId:javax.faces.ViewState".toList, [], emptyFragmentTable⟩

def c3Frag : FragmentTable :=
  ⟨none, none, none, some [⟨false, ["x".toList, "12,345".toList]⟩]⟩

def c4Frag : FragmentTable :=
  ⟨none, none, none, some [⟨false, [['a']]⟩, ⟨false, [['b'], ['c']]⟩]⟩

def acmeRow : List Str :=
  ["1".toList, "Acme Motors".toList, "120".toList, "130".toList,
   "140".toList, "150".toList, "160".toList, "170".toList, "180".toList,
   "190".toList, "200".toList, "210".toList, "220".toList, "230".toList,
   "1500".toList]

def c6FirstRows : List (List Str) := List.replicate 100 [['r']]

/-- A page fetch on which the fallback loop continues: a non-empty page of
at least the page size. -/
def contPage (ps : Nat) (fr : FetchResult) : Prop :=
  ∃ p, fr = .rows p ∧ p ≠ [] ∧ ps ≤ p.length

/-- A page fetch on which the fallback loop stops: a raised exception, an
empty page, or a page shorter than the page size. -/
def stopPage (ps : Nat) (fr : FetchResult) : Prop :=
  (∃ m, fr = .raise m) ∨ fr = .rows [] ∨
    ∃ p, fr = .rows p ∧ p ≠ [] ∧ p.length < ps

/-! ## Claim theorems -/

/-- C1 counterexample: an envelope containing an update element whose id
matches the view-state pattern but whose text is empty does not yield that
text verbatim — the caller-supplied token is kept instead. -/
theorem c1_view_state_empty_text_counterexample :
    strEndsWith ("ViewState".toList) vsEmptyUpdate.id = true ∧
    updateViewState [vsEmptyUpdate] ("OLD".toList) = "OLD".toList ∧
    ("OLD".toList : Str) ≠ vsEmptyUpdate.payload := by decide

/-- C1 (amended): on a 200 response, the first update element whose id ends
in `ViewState` yields its text as the new token when that text is
non-empty; with no such element, or an empty text, the caller-supplied
token is returned unchanged; `send_ajax_request` returns the refreshed
token on a first-attempt success. -/
theorem c1_view_state_token :
    (∀ (env : Envelope) (vs : Str) (u : Update),
        findViewStateUpdate env = some u → u.payload ≠ [] →
        updateViewState env vs = u.payload) ∧
    (∀ (env : Envelope) (vs : Str),
        findViewStateUpdate env = none → updateViewState env vs = vs) ∧
    (∀ (env : Envelope) (vs : Str) (u : Update),
        findViewStateUpdate env = some u → u.payload = [] →
        updateViewState env vs = vs) ∧
    (∀ (vs source : Str) (resp : Nat → AttemptResult) (env : Envelope)
        (retries : Nat), 0 < retries → resp 1 = .ok env →
        (send_ajax_request vs source resp retries).result =
          .success (updateViewState env vs) env) := by
  refine ⟨?_, ?_, ?_, ?_⟩
  · intro env vs u hf hp
    simp [updateViewState, hf, hp]
  · intro env vs hf
    simp [updateViewState, hf]
  · intro env vs u hf hp
    simp [updateViewState, hf, hp]
  · intro vs source resp env retries hr h1
    cases retries with
    | zero => exact absurd hr (by simp)
    | succ n => simp [send_ajax_request, sendAux, h1]

/-- C1 witness: a non-empty view-state update is returned verbatim. -/
theorem c1_view_state_token_witness :
    updateViewState
      [⟨"x:ViewState".toList, "NEW".toList, emptyFragmentTable⟩]
      ("OLD".toList) = "NEW".toList :=
  c1_view_state_token.1 _ _
    ⟨"x:ViewState".toList, "NEW".toList, emptyFragmentTable⟩
    (by decide) (by decide)

/-- C3 counterexample: `parse_datatable_fragment` (whose cell cleaning is
`clean_cell_text`) keeps the comma in a purely numeric cell. -/
theorem c3_comma_kept_counterexample :
    (parse_datatable_fragment c3Frag).2 = [["x".toList, "12,345".toList]] ∧
    ("12,345".toList : Str) ≠ "12345".toList := by decide

/-- C3 (amended): `extract_all.clean_cell` strips commas from purely
numeric cells and whitespace-normalizes the rest, and `parse_table` applies
it; but `scraper_requests.clean_cell_text` — the cleaning used by
`parse_datatable_fragment` — only normalizes whitespace, so there the
commas survive. -/
theorem c3_numeric_comma_cleaning :
    (∀ t : Str, fullmatchNumComma (pyStrip (replaceNbsp t)) = true →
        clean_cell t =
          (pyStrip (replaceNbsp t)).filter (fun c => c ≠ ',')) ∧
    (∀ t : Str, fullmatchNumComma (pyStrip (replaceNbsp t)) = false →
        clean_cell t = collapseWs (pyStrip (replaceNbsp t))) ∧
    clean_cell ("12,345".toList) = "12345".toList ∧
    clean_cell ("Acme, Inc.".toList) = "Acme, Inc.".toList ∧
    (parse_table c3Frag).2 = [["x".toList, "12345".toList]] ∧
    clean_cell_text ("12,345".toList) = "12,345".toList := by
  refine ⟨?_, ?_, by decide, by decide, by decide, by decide⟩
  · intro t h
    simp [clean_cell, h]
  · intro t h
    simp [clean_cell, h]

/-- C3 witness: the numeric branch of `clean_cell` at a concrete cell. -/
theorem c3_numeric_comma_cleaning_witness :
    clean_cell ("1,2".toList) =
      (pyStrip (replaceNbsp ("1,2".toList))).filter (fun c => c ≠ ',') :=
  c3_numeric_comma_cleaning.1 _ (by decide)

/-- C10: a response envelope with no `groupingTable` update makes
`fetch_page` return the empty row list rather than raising, and both
pagination loops treat an empty page as the end, keeping the rows collected
so far. -/
theorem c10_missing_fragment_empty :
    (∀ env : Envelope,
        (∀ u ∈ env, u.id ≠ "groupingTable".toList) →
        fetch_page_rows env = []) ∧
    (∀ (fetch : Nat → FetchResult) (rows : List (List Str))
        (fetched i : Nat) (rest : List Nat), fetch i = .rows [] →
        knownLoop fetch (i :: rest) rows fetched = ⟨rows, fetched, [i]⟩) ∧
    (∀ (fetch : Nat → FetchResult) (ps : Nat) (rows : List (List Str))
        (fetched i : Nat) (rest : List Nat), fetch i = .rows [] →
        fallbackLoop fetch ps (i :: rest) rows fetched =
          ⟨rows, fetched, [i]⟩) := by
  refine ⟨?_, ?_, ?_⟩
  · intro env h
    have hfind : env.find? (fun u => u.id == "groupingTable".toList) =
        none := by
      rw [List.find?_eq_none]
      intro u hu
      simpa using h u hu
    simp only [fetch_page_rows, extract_update_fragment, hfind]
  · intro fetch rows fetched i rest h
    simp [knownLoop, h]
  · intro fetch ps rows fetched i rest h
    simp [fallbackLoop, h]

/-- C10 witness: a concrete envelope carrying only a message update. -/
theorem c10_missing_fragment_empty_witness :
    fetch_page_rows [⟨"msg".toList, "hello".toList, emptyFragmentTable⟩] =
      [] :=
  c10_missing_fragment_empty.1 _ (by decide)

/-- C2: with `totalRows=250`, `pageSize=100` and a 100-row first page, the
driver fetches exactly pages 1 and 2 and accumulates 250 rows; a zero-row
page or an exception at page 1 or 2 stops the loop, keeping the rows
collected so far. -/
theorem c2_pagination_known_total :
    (∀ (firstRows p1 p2 : List (List Str)) (fetch : Nat → FetchResult),
        firstRows.length = 100 →
        fetch 1 = .rows p1 → p1.length = 100 →
        fetch 2 = .rows p2 → p2.length = 50 →
        refresh_pagination firstRows (some 250, some 100) fetch =
          ⟨firstRows ++ p1 ++ p2, 3, [1, 2]⟩ ∧
        (firstRows ++ p1 ++ p2).length = 250) ∧
    (∀ (firstRows : List (List Str)) (fetch : Nat → FetchResult),
        firstRows.length = 100 →
        (fetch 1 = .rows [] ∨ ∃ m, fetch 1 = .raise m) →
        refresh_pagination firstRows (some 250, some 100) fetch =
          ⟨firstRows, 1, [1]⟩) ∧
    (∀ (firstRows p1 : List (List Str)) (fetch : Nat → FetchResult),
        firstRows.length = 100 →
        fetch 1 = .rows p1 → p1 ≠ [] →
        (fetch 2 = .rows [] ∨ ∃ m, fetch 2 = .raise m) →
        refresh_pagination firstRows (some 250, some 100) fetch =
          ⟨firstRows ++ p1, 2, [1, 2]⟩) := by
  have hrange :
      List.range' 1 (ceilNat ((some (250 : Nat)).getD 0)
        ((some (100 : Nat)).getD 0) - 1) = [1, 2] := by decide
  refine ⟨?_, ?_, ?_⟩
  · intro firstRows p1 p2 fetch h100 h1 hp1 h2 hp2
    cases p1 with
    | nil => simp at hp1
    | cons a as =>
      cases p2 with
      | nil => simp at hp2
      | cons b bs =>
        constructor
        · simp only [refresh_pagination, truthyN, h100]
          rw [if_pos (by simp [h100])]
          rw [hrange]
          simp [knownLoop, h1, h2, List.append_assoc]
        · simp only [List.length_append, h100, hp1, hp2]
  · intro firstRows fetch h100 h1
    simp only [refresh_pagination, truthyN]
    rw [if_pos (by simp [h100])]
    rw [hrange]
    rcases h1 with h1 | ⟨m, h1⟩ <;> simp [knownLoop, h1]
  · intro firstRows p1 fetch h100 h1 hp1 h2
    cases p1 with
    | nil => exact absurd rfl hp1
    | cons a as =>
      simp only [refresh_pagination, truthyN]
      rw [if_pos (by simp [h100])]
      rw [hrange]
      rcases h2 with h2 | ⟨m, h2⟩ <;> simp [knownLoop, h1, h2]

theorem maxCols_bound (rows : List (List Str)) :
    ∀ r ∈ rows, r.length ≤ maxCols rows := by
  induction rows with
  | nil => intro r hr; simp at hr
  | cons x xs ih =>
    intro r hr
    rcases List.mem_cons.mp hr with rfl | hr
    · simp only [maxCols, List.foldr_cons]
      omega
    · have := ih r hr
      simp only [maxCols, List.foldr_cons] at this ⊢
      omega

theorem fitWidth_length (w : Nat) (r : List Str) :
    (fitWidth w r).length = w := by
  unfold fitWidth
  by_cases h1 : r.length < w
  · simp only [if_pos h1, List.length_append, List.length_replicate]
    omega
  · rw [if_neg h1]
    by_cases h2 : w < r.length
    · simp only [if_pos h2, List.length_take]
      omega
    · rw [if_neg h2]
      omega

theorem padWidth_length (w : Nat) (r : List Str) (h : r.length ≤ w) :
    (padWidth w r).length = w := by
  unfold padWidth
  by_cases h1 : r.length < w
  · simp only [if_pos h1, List.length_append, List.length_replicate]
    omega
  · rw [if_neg h1]
    omega

theorem normalizeExtract_width (headers : List Str)
    (rows : List (List Str)) :
    ∀ r ∈ (normalizeExtract headers rows).2,
      r.length = (normalizeExtract headers rows).1.length := by
  intro r hr
  cases headers with
  | cons h t =>
    simp only [normalizeExtract, List.isEmpty_cons, Bool.not_false,
      if_true] at hr ⊢
    obtain ⟨r', _, rfl⟩ := List.mem_map.mp hr
    exact fitWidth_length _ _
  | nil =>
    simp only [normalizeExtract, List.isEmpty_nil, Bool.not_true,
      Bool.false_eq_true, if_false] at hr ⊢
    obtain ⟨r', hr', rfl⟩ := List.mem_map.mp hr
    rw [padWidth_length _ _ (maxCols_bound rows r' hr')]
    simp

theorem normalizeScraper_width (headers : List Str)
    (rows : List (List Str)) :
    ∀ r ∈ rows, r.length ≤ (normalizeHeadersScraper headers rows).length := by
  intro r hr
  have hm := maxCols_bound rows r hr
  dsimp only [normalizeHeadersScraper]
  split_ifs with h1 h2
  · simp only [Bool.and_eq_true, Bool.not_eq_eq_eq_not, Bool.not_true,
      decide_eq_true_eq] at h1
    simp only [List.length_append, List.length_map, List.length_range']
    omega
  · simp only [Bool.and_eq_true, decide_eq_true_eq] at h2
    simp only [List.length_map, List.length_range]
    omega
  · by_cases hh : headers.isEmpty
    · have : maxCols rows = 0 := by
        by_contra hmz
        exact h2 (by simp [hh, hmz])
      omega
    · have : ¬ headers.length < maxCols rows := by
        intro hlt
        exact h1 (by simp [hh, hlt])
      omega

/-- C4 counterexample: `parse_datatable_fragment` leaves a short row
un-padded — its first returned row has 1 cell against 2 headers. -/
theorem c4_ragged_row_counterexample :
    parse_datatable_fragment c4Frag =
      ([colName 0, colName 1], [[['a']], [['b'], ['c']]]) ∧
    ¬ ∀ r ∈ (parse_datatable_fragment c4Frag).2,
        r.length = (parse_datatable_fragment c4Frag).1.length := by decide

/-- C4 (amended): `extract_all.parse_table` returns rows of exactly the
header width (short rows padded, long rows truncated);
`scraper_requests.parse_datatable_fragment` only widens the headers to the
widest row, so its rows are merely bounded by the header width. -/
theorem c4_row_width_invariant :
    ∀ f : FragmentTable,
      (∀ r ∈ (parse_table f).2, r.length = (parse_table f).1.length) ∧
      (∀ r ∈ (parse_datatable_fragment f).2,
          r.length ≤ (parse_datatable_fragment f).1.length) := by
  intro f
  constructor
  · intro r hr
    simp only [parse_table] at hr ⊢
    exact normalizeExtract_width _ _ r hr
  · intro r hr
    simp only [parse_datatable_fragment] at hr ⊢
    exact normalizeScraper_width _ _ r hr

/-- C4 witness: the invariant evaluated on a concrete fragment. -/
theorem c4_row_width_invariant_witness :
    (["x".toList, "12345".toList] : List Str).length =
      (parse_table c3Frag).1.length :=
  (c4_row_width_invariant c3Frag).1 _ (by decide)

/-- C5: with blank or missing headers and a 15-cell first data row whose
first cell is a pure integer and whose second is not purely numeric, both
parsers infer the canonical `S No, Maker, JAN..DEC, TOTAL` header, and both
full parses return it for a single-row fragment. -/
theorem c5_header_inference :
    (∀ (headers : List Str) (rest : List (List Str)),
        (headers.isEmpty || headers.all List.isEmpty) = true →
        inferHeadersScraper headers (acmeRow :: rest) = canonical15 ∧
        inferHeadersExtract headers (acmeRow :: rest) = canonical15) ∧
    parse_datatable_fragment ⟨none, none, none, some [⟨false, acmeRow⟩]⟩ =
      (canonical15, [acmeRow]) ∧
    parse_table ⟨none, none, none, some [⟨false, acmeRow⟩]⟩ =
      (canonical15, [acmeRow]) := by
  refine ⟨?_, by decide, by decide⟩
  intro headers rest h
  constructor
  · unfold inferHeadersScraper
    rw [if_pos (by simp [h])]
    rfl
  · unfold inferHeadersExtract
    rw [if_pos (by simp [h])]
    rfl

/-- C5 witness: inference at empty headers and the single Acme row. -/
theorem c5_header_inference_witness :
    inferHeadersScraper [] [acmeRow] = canonical15 ∧
    inferHeadersExtract [] [acmeRow] = canonical15 :=
  c5_header_inference.1 [] [] (by decide)

/-- C2 witness: concrete 250/100 pagination with 100- and 50-row pages. -/
theorem c2_pagination_known_total_witness :
    refresh_pagination (List.replicate 100 [['a']]) (some 250, some 100)
      (fun i => if i = 1 then .rows (List.replicate 100 [['b']])
                else .rows (List.replicate 50 [['c']])) =
      ⟨List.replicate 100 [['a']] ++ List.replicate 100 [['b']] ++
        List.replicate 50 [['c']], 3, [1, 2]⟩ :=
  (c2_pagination_known_total.1 _ _ _ _ (by simp) (by simp) (by simp)
    (by simp) (by simp)).1

theorem sendAux_attempts_le (retries : Nat) (source vs : Str)
    (resp : Nat → AttemptResult) :
    ∀ (n start : Nat), (sendAux retries source vs resp start n).attempts ≤ n := by
  intro n
  induction n with
  | zero => intro start; simp [sendAux]
  | succ m ih =>
    intro start
    rcases hres : resp start with env | c | _
    · simp [sendAux, hres]
    all_goals
      simp only [sendAux, hres]
      exact Nat.succ_le_succ (ih (start + 1))

theorem sendAux_all_fail (retries : Nat) (source vs : Str)
    (resp : Nat → AttemptResult) :
    ∀ (n start : Nat),
      (∀ a, start ≤ a → a < start + n → ∀ env, resp a ≠ .ok env) →
      sendAux retries source vs resp start n =
        ⟨.raised (failMsg retries source), n,
          (List.range' start n).map (fun i => (1.2 : ℚ) * i)⟩ := by
  intro n
  induction n with
  | zero => intro start h; simp [sendAux]
  | succ m ih =>
    intro start h
    rcases hres : resp start with env | c | _
    · exact absurd hres (h start le_rfl (by omega) env)
    all_goals
      simp only [sendAux, hres]
      rw [ih (start + 1) (fun a h1 h2 => h a (by omega) (by omega))]
      rw [List.range'_succ]
      simp

theorem sendAux_success (retries : Nat) (source vs : Str)
    (resp : Nat → AttemptResult) :
    ∀ (n start k : Nat) (env : Envelope),
      start ≤ k → k < start + n →
      (∀ a, start ≤ a → a < k → ∀ e, resp a ≠ .ok e) →
      resp k = .ok env →
      (sendAux retries source vs resp start n).result =
        .success (updateViewState env vs) env ∧
      (sendAux retries source vs resp start n).attempts = k - start + 1 := by
  intro n
  induction n with
  | zero => intro start k env h1 h2 _ _; omega
  | succ m ih =>
    intro start k env h1 h2 hfail hok
    by_cases hsk : start = k
    · subst hsk
      simp [sendAux, hok]
    · have hlt : start < k := lt_of_le_of_ne h1 hsk
      rcases hres : resp start with env2 | c | _
      · exact absurd hres (hfail start le_rfl hlt env2)
      all_goals
        simp only [sendAux, hres]
        have hrec := ih (start + 1) k env (by omega) (by omega)
          (fun a ha1 ha2 => hfail a (by omega) ha2) hok
        exact ⟨hrec.1, by omega⟩

/-- C7: `send_ajax_request` makes at most `retries` attempts (default 3);
when every attempt fails, it makes exactly `retries` attempts, sleeps
`1.2 * attempt` seconds after each failed attempt — so between consecutive
failed attempts — and raises an error naming the failing source; a success
at any attempt `k` returns normally after exactly `k` attempts. -/
theorem c7_retry_exhaustion :
    (∀ (vs source : Str) (resp : Nat → AttemptResult) (retries : Nat),
        (send_ajax_request vs source resp retries).attempts ≤ retries) ∧
    (∀ (vs source : Str) (resp : Nat → AttemptResult) (retries : Nat),
        (∀ a, 1 ≤ a → a ≤ retries → ∀ env, resp a ≠ .ok env) →
        send_ajax_request vs source resp retries =
          ⟨.raised (failMsg retries source), retries,
            (List.range' 1 retries).map (fun i => (1.2 : ℚ) * i)⟩) ∧
    (∀ (retries : Nat) (source : Str),
        ∃ p : Str, failMsg retries source = p ++ source) ∧
    (∀ (vs source : Str) (resp : Nat → AttemptResult) (retries k : Nat)
        (env : Envelope), 1 ≤ k → k ≤ retries →
        (∀ a, 1 ≤ a → a < k → ∀ e, resp a ≠ .ok e) →
        resp k = .ok env →
        (send_ajax_request vs source resp retries).result =
          .success (updateViewState env vs) env ∧
        (send_ajax_request vs source resp retries).attempts = k) := by
  refine ⟨?_, ?_, ?_, ?_⟩
  · intro vs source resp retries
    exact sendAux_attempts_le retries source vs resp retries 1
  · intro vs source resp retries h
    exact sendAux_all_fail retries source vs resp retries 1
      (fun a h1 h2 => h a h1 (by omega))
  · intro retries source
    exact ⟨"Failed ajax after ".toList ++ (Nat.repr retries).toList ++
      " attempts for source ".toList, by simp [failMsg]⟩
  · intro vs source resp retries k env h1 h2 hfail hok
    have hs := sendAux_success retries source vs resp retries 1 k env h1
      (by omega) hfail hok
    have h3 : (send_ajax_request vs source resp retries).attempts =
        k - 1 + 1 := hs.2
    exact ⟨hs.1, by omega⟩

/-- C7 witness: three exception attempts exhaust the default retry bound,
with backoff sleeps 1.2, 2.4, 3.6 seconds and a raised transport error. -/
theorem c7_retry_exhaustion_witness :
    send_ajax_request [] ("src".toList) (fun _ => .exn) 3 =
      ⟨.raised (failMsg 3 ("src".toList)), 3,
        (List.range' 1 3).map (fun i => (1.2 : ℚ) * i)⟩ :=
  c7_retry_exhaustion.2.1 [] ("src".toList) (fun _ => .exn) 3
    (by intro a h1 h2 env h; exact AttemptResult.noConfusion h)

theorem fallbackLoop_all_cont (fetch : Nat → FetchResult) (ps : Nat) :
    ∀ (is : List Nat) (rows : List (List Str)) (f : Nat),
      (∀ i ∈ is, contPage ps (fetch i)) →
      (fallbackLoop fetch ps is rows f).calls = is := by
  intro is
  induction is with
  | nil => intro rows f _; simp [fallbackLoop]
  | cons i rest ih =>
    intro rows f h
    obtain ⟨p, hp, hpne, hple⟩ := h i (List.mem_cons_self i rest)
    cases p with
    | nil => exact absurd rfl hpne
    | cons a as =>
      have hng : ¬((rows ++ a :: as).length = rows.length) := by
        simp only [List.length_append, List.length_cons]
        omega
      have hns : ¬((a :: as).length < ps) := Nat.not_lt.mpr hple
      simp only [fallbackLoop, hp, if_neg hng, if_neg hns]
      rw [ih _ _ (fun j hj => h j (List.mem_cons_of_mem _ hj))]

theorem fallbackLoop_stops (fetch : Nat → FetchResult) (ps : Nat) :
    ∀ (pre : List Nat) (i : Nat) (post : List Nat)
      (rows : List (List Str)) (f : Nat),
      (∀ j ∈ pre, contPage ps (fetch j)) →
      stopPage ps (fetch i) →
      (fallbackLoop fetch ps (pre ++ i :: post) rows f).calls =
        pre ++ [i] := by
  intro pre
  induction pre with
  | nil =>
    intro i post rows f _ hstop
    rcases hstop with ⟨m, hm⟩ | hm | ⟨p, hp, hpne, hplt⟩
    · simp [fallbackLoop, hm]
    · simp [fallbackLoop, hm]
    · cases p with
      | nil => exact absurd rfl hpne
      | cons a as =>
        have hng : ¬((rows ++ a :: as).length = rows.length) := by
          simp only [List.length_append, List.length_cons]
          omega
        simp only [List.nil_append, fallbackLoop, hp, if_neg hng,
          if_pos hplt]
  | cons j rest ih =>
    intro i post rows f h hstop
    obtain ⟨p, hp, hpne, hple⟩ := h j (List.mem_cons_self j rest)
    cases p with
    | nil => exact absurd rfl hpne
    | cons a as =>
      have hng : ¬((rows ++ a :: as).length = rows.length) := by
        simp only [List.length_append, List.length_cons]
        omega
      have hns : ¬((a :: as).length < ps) := Nat.not_lt.mpr hple
      simp only [List.cons_append, fallbackLoop, hp, if_neg hng,
        if_neg hns]
      have hrec := ih i post (rows ++ a :: as) (f + 1)
        (fun x hx => h x (List.mem_cons_of_mem _ hx)) hstop
      simp only [List.append_eq] at hrec ⊢
      rw [hrec]

/-- C6 counterexample: with `totalRows = 100` present (and truthy) and a
100-row first page, the driver still enters the no-growth probing branch
and issues a probe fetch for page 1 — probing is not used "exactly when
totalRows is absent". -/
theorem c6_probe_with_total_counterexample :
    truthyN (some 100) = true ∧
    paginationMode c6FirstRows.length (some 100, some 100) = .probe ∧
    (refresh_pagination c6FirstRows (some 100, some 100)
      (fun _ => .rows [])).calls = [1] := by decide

/-- C6 (amended): the no-growth probing branch runs exactly when the page
size is present and positive and NOT (totalRows present, non-zero, and
greater than the first page's row count); in that branch the driver probes
successive pages 1..499 (the safety cap) and stops exactly at the first
fetch that raises, returns zero rows, or returns a page shorter than the
page size. -/
theorem c6_probe_mode :
    (∀ (n : Nat) (t p : Option Nat),
        paginationMode n (t, p) = .probe ↔
          (¬(truthyN t = true ∧ truthyN p = true ∧ n < t.getD 0) ∧
            truthyN p = true ∧ 0 < p.getD 0)) ∧
    (∀ (firstRows : List (List Str)) (meta : Option Nat × Option Nat)
        (fetch : Nat → FetchResult),
        paginationMode firstRows.length meta = .probe →
        refresh_pagination firstRows meta fetch =
          fallbackLoop fetch (meta.2.getD 0) (List.range' 1 499)
            firstRows 1) ∧
    (∀ (fetch : Nat → FetchResult) (ps : Nat) (is : List Nat)
        (rows : List (List Str)) (f : Nat),
        (∀ i ∈ is, contPage ps (fetch i)) →
        (fallbackLoop fetch ps is rows f).calls = is) ∧
    (∀ (fetch : Nat → FetchResult) (ps : Nat) (pre : List Nat) (i : Nat)
        (post : List Nat) (rows : List (List Str)) (f : Nat),
        (∀ j ∈ pre, contPage ps (fetch j)) → stopPage ps (fetch i) →
        (fallbackLoop fetch ps (pre ++ i :: post) rows f).calls =
          pre ++ [i]) := by
  refine ⟨?_, ?_, fallbackLoop_all_cont, fallbackLoop_stops⟩
  · intro n t p
    unfold paginationMode
    by_cases c1 : (truthyN t && truthyN p && decide (n < t.getD 0)) = true
    · rw [if_pos c1]
      simp only [Bool.and_eq_true, decide_eq_true_eq] at c1
      constructor
      · intro hc
        exact absurd hc (by simp)
      · rintro ⟨hnc, -⟩
        exact absurd ⟨c1.1.1, c1.1.2, c1.2⟩ hnc
    · rw [if_neg c1]
      by_cases c2 : (truthyN p && decide (0 < p.getD 0)) = true
      · rw [if_pos c2]
        simp only [Bool.and_eq_true, decide_eq_true_eq] at c2
        constructor
        · intro _
          refine ⟨?_, c2.1, c2.2⟩
          rintro ⟨ht, hp, hn⟩
          exact c1 (by simp [ht, hp, hn])
        · intro _
          rfl
      · rw [if_neg c2]
        constructor
        · intro hc
          exact absurd hc (by simp)
        · rintro ⟨-, hp, hpos⟩
          exact absurd (by simp [hp, hpos] :
            (truthyN p && decide (0 < p.getD 0)) = true) c2
  · intro firstRows meta fetch h
    unfold paginationMode at h
    unfold refresh_pagination
    split_ifs at h ⊢ with h1 h2
    simp_all

/-- C6 witness: an immediately empty probe fetch stops after page 1. -/
theorem c6_probe_mode_witness :
    (fallbackLoop (fun _ => .rows []) 2 ([] ++ 1 :: List.range' 2 498)
      [] 1).calls = [] ++ [1] :=
  c6_probe_mode.2.2.2 _ 2 [] 1 (List.range' 2 498) [] 1
    (by intro j hj; simp at hj) (Or.inr (Or.inl rfl))

/-- C8 counterexample: `refresh_and_save` invoked with the initial field
map (no year selected) builds and sends the refresh exchange anyway — no
fail-fast — and its field map simply omits `selectedYear_input`. -/
theorem c8_refresh_no_fail_fast_counterexample :
    ((refresh_request initCurrent).fields.map Prod.fst).contains
      ("selectedYear_input".toList) = false ∧
    (refresh_request initCurrent).source = "j_idt66".toList := by decide

/-- C8 (amended): in `run`'s control flow the refresh exchange is issued
only after the Y-axis, X-axis and year selection exchanges have all been
issued; but `refresh_and_save` itself performs no fail-fast check — for any
field map it builds and sends the refresh request, and with no year
selected the field map simply lacks the year field. -/
theorem c8_refresh_order :
    (∀ fails : Nat → Bool,
        "j_idt66".toList ∈ runTrace fails →
        runTrace fails = ["yaxisVar".toList, "xaxisVar".toList,
          "selectedYear".toList, "j_idt66".toList]) ∧
    (∀ current : List (Str × Option Str),
        (refresh_request current).source = "j_idt66".toList ∧
        (refresh_request current).fields =
          buildExtraFields current ++
            [("j_idt66".toList, "j_idt66".toList),
             ("groupingTable_scrollState".toList, "0,0".toList)]) ∧
    ((refresh_request initCurrent).fields.map Prod.fst).contains
      ("selectedYear_input".toList) = false := by
  refine ⟨?_, fun current => ⟨rfl, rfl⟩, by decide⟩
  intro fails hmem
  by_cases f1 : fails 1
  · exfalso
    simp only [runTrace, if_pos f1] at hmem
    rcases List.mem_cons.mp hmem with h | h
    · exact absurd h (by decide)
    · simp at h
  · by_cases f2 : fails 2
    · exfalso
      simp only [runTrace, if_neg f1, if_pos f2] at hmem
      rcases List.mem_cons.mp hmem with h | h
      · exact absurd h (by decide)
      rcases List.mem_cons.mp h with h | h
      · exact absurd h (by decide)
      · simp at h
    · by_cases f3 : fails 3
      · exfalso
        simp only [runTrace, if_neg f1, if_neg f2, if_pos f3] at hmem
        rcases List.mem_cons.mp hmem with h | h
        · exact absurd h (by decide)
        rcases List.mem_cons.mp h with h | h
        · exact absurd h (by decide)
        rcases List.mem_cons.mp h with h | h
        · exact absurd h (by decide)
        · simp at h
      · simp only [runTrace, if_neg f1, if_neg f2, if_neg f3]

/-- C8 witness: a failure-free run issues the four exchanges in order. -/
theorem c8_refresh_order_witness :
    runTrace (fun _ => false) = ["yaxisVar".toList, "xaxisVar".toList,
      "selectedYear".toList, "j_idt66".toList] :=
  c8_refresh_order.1 (fun _ => false) (by decide)

theorem map_fixed {α : Type} (f : α → α) :
    ∀ l : List α, (∀ x ∈ l, f x = x) → l.map f = l := by
  intro l hl
  induction l with
  | nil => rfl
  | cons a t ih =>
    simp only [List.map_cons]
    rw [hl a (List.mem_cons_self a t),
      ih (fun x hx => hl x (List.mem_cons_of_mem _ hx))]

theorem filter_fixed {α : Type} (p : α → Bool) :
    ∀ l : List α, (∀ x ∈ l, p x = true) → l.filter p = l := by
  intro l hl
  induction l with
  | nil => rfl
  | cons a t ih =>
    rw [List.filter_cons_of_pos (hl a (List.mem_cons_self a t)),
      ih (fun x hx => hl x (List.mem_cons_of_mem _ hx))]

theorem maxCols_le_of (rows : List (List Str)) (k : Nat)
    (h : ∀ r ∈ rows, r.length ≤ k) : maxCols rows ≤ k := by
  induction rows with
  | nil => simp [maxCols]
  | cons x xs ih =>
    have hx := h x (List.mem_cons_self x xs)
    have hxs := ih (fun r hr => h r (List.mem_cons_of_mem _ hr))
    simp only [maxCols, List.foldr_cons] at hxs ⊢
    omega

/-- C9 counterexample: a row whose only cell is blank is dropped by
`parse_datatable_fragment`, so the parse of the synthesized table does not
reproduce the input `(headers, rows)`. -/
theorem c9_roundtrip_blank_row_counterexample :
    parse_datatable_fragment (build_html_table ["H".toList] [[[]]]) =
      (["H".toList], []) ∧
    ([[]] : List (List Str)) ≠ [] := by decide

/-- C9 (amended): parsing the synthesized combined table reproduces
`(headers, rows)` exactly, provided every header and cell is already
whitespace-normal, every row has a non-blank cell (all-blank rows are
otherwise dropped), no row is wider than the headers (headers are otherwise
extended with positional names), and the headers are not all blank when
rows exist (header inference otherwise rewrites them). -/
theorem c9_roundtrip :
    ∀ (headers : List Str) (rows : List (List Str)),
      (∀ h ∈ headers, clean_cell_text h = h) →
      (∀ r ∈ rows, ∀ c ∈ r, clean_cell_text c = c) →
      (∀ r ∈ rows, rowHasContent r = true) →
      (∀ r ∈ rows, r.length ≤ headers.length) →
      (rows ≠ [] → (headers.isEmpty || headers.all List.isEmpty) = false) →
      parse_datatable_fragment (build_html_table headers rows) =
        (headers, rows) := by
  intro headers rows H1 H2 H3 H4 H5
  have hH : rawHeadersScraper (build_html_table headers rows) = headers := by
    show (pickMaxRow (headers.map (fun h => (⟨false, h⟩ : HCell))) []).map
        (fun c => clean_cell_text c.text) = headers
    rw [show pickMaxRow (headers.map (fun h => (⟨false, h⟩ : HCell))) [] =
        headers.map (fun h => (⟨false, h⟩ : HCell)) from rfl]
    rw [List.map_map]
    exact map_fixed _ headers H1
  have hne : ∀ r ∈ rows, r ≠ [] := by
    intro r hr hrnil
    have hc := H3 r hr
    rw [hrnil] at hc
    simp [rowHasContent] at hc
  have hB : bodyRowsScraper (build_html_table headers rows) = rows := by
    show (((rows.map (fun r => (⟨false, r⟩ : BRow))).filter
        (fun tr => !tr.cells.isEmpty)).map
        (fun tr => tr.cells.map clean_cell_text)).filter rowHasContent =
        rows
    have hfilter : (rows.map (fun r => (⟨false, r⟩ : BRow))).filter
        (fun tr => !tr.cells.isEmpty) =
        rows.map (fun r => (⟨false, r⟩ : BRow)) := by
      apply filter_fixed
      intro tr htr
      obtain ⟨r, hr, rfl⟩ := List.mem_map.mp htr
      simpa using hne r hr
    rw [hfilter, List.map_map]
    show ((rows.map (fun r => r.map clean_cell_text)).filter
      rowHasContent) = rows
    rw [map_fixed _ rows (fun r hr => map_fixed _ r (H2 r hr))]
    exact filter_fixed _ rows H3
  have hinf : inferHeadersScraper headers rows = headers := by
    unfold inferHeadersScraper
    rcases hrows : rows with _ | ⟨r0, rs⟩
    · simp
    · rw [if_neg]
      simp only [Bool.and_eq_true, not_and]
      intro hblank
      rw [H5 (by rw [hrows]; simp)] at hblank
      exact absurd hblank (by simp)
  have hmle : maxCols rows ≤ headers.length := maxCols_le_of rows _ H4
  have hnorm : normalizeHeadersScraper headers rows = headers := by
    have hc1 : ¬((!headers.isEmpty &&
        decide (headers.length < maxCols rows)) = true) := by
      simp only [Bool.and_eq_true, decide_eq_true_eq]
      rintro ⟨-, hlt⟩
      omega
    have hc2 : ¬((headers.isEmpty && decide (maxCols rows ≠ 0)) = true) := by
      simp only [Bool.and_eq_true, decide_eq_true_eq]
      rintro ⟨hie, hmne⟩
      have hhe : headers = [] := by simpa using hie
      have hle0 : maxCols rows ≤ 0 :=
        maxCols_le_of rows 0 (by simpa [hhe] using H4)
      omega
    dsimp only [normalizeHeadersScraper]
    rw [if_neg hc1, if_neg hc2]
  simp only [parse_datatable_fragment]
  rw [hH, hB, hinf, hnorm]

/-- C9 witness: a concrete clean two-column table round-trips. -/
theorem c9_roundtrip_witness :
    parse_datatable_fragment
      (build_html_table ["H".toList, "K".toList]
        [["a".toList, "1".toList]]) =
      (["H".toList, "K".toList], [["a".toList, "1".toList]]) :=
  c9_roundtrip ["H".toList, "K".toList] [["a".toList, "1".toList]]
    (by decide) (by decide) (by decide) (by decide) (by decide)

end Vahan
